import Mathlib

/-!
Shallow embedding of the geospatial data-access core of the parking-app
backend (`src/data/data_loader.py`), together with theorems settling the
frozen specification claims.

Modelling conventions:
* Coordinates, distances and fine amounts are rationals (`ℚ`); the Python
  code computes with IEEE floats, which we idealise by exact arithmetic.
* The external geodesic-distance routine (`geopy.distance.geodesic(..).meters`)
  and the in-SQL trigonometric distance expression are external numeric
  oracles; the query pipelines are parametrised by a distance function
  `d : ℚ → ℚ → ℚ → ℚ → ℚ` taking `qlat qlon rlat rlon`.
* SQLite `issue_date` values are ISO `YYYY-MM-DD` strings; lexicographic
  comparison of such strings coincides with numeric comparison of the
  `yyyymmdd` number, so dates are embedded as `Option ℕ` in that encoding
  (`none` = SQL NULL / unparseable date).
* `pandas.to_numeric(errors='coerce')` results are embedded as `Option ℚ`
  (`none` = NaN / unparseable).
* Python's `round(x, n)` (round-half-to-even) is embedded as `pyRound`.
-/

namespace ParkingApp

/-- Python's `round(x, n)`: round to `n` decimal places, ties to even. -/
def pyRound (n : ℕ) (x : ℚ) : ℚ :=
  let m : ℚ := (10 : ℚ) ^ n
  let y := x * m
  let f : ℤ := ⌊y⌋
  let frac := y - f
  if frac < 1/2 then (f : ℚ) / m
  else if 1/2 < frac then ((f : ℚ) + 1) / m
  else if Even f then (f : ℚ) / m else ((f : ℚ) + 1) / m

/-- The fixed NYC bounding box used everywhere in `data_loader.py`. -/
def inBox (la lo : ℚ) : Prop :=
  40.4774 ≤ la ∧ la ≤ 40.9176 ∧ -74.2591 ≤ lo ∧ lo ≤ -73.7004

instance (la lo : ℚ) : Decidable (inBox la lo) := by
  unfold inBox; infer_instance

/-! ## Violations store (SQLite table `violations`)

The table (`_init_database`) has a surrogate autoincrement key and a
`UNIQUE` constraint on `summons_number`; per SQL semantics, `NULL`
summons numbers never conflict with each other.  Rows are embedded with
the columns the claims touch. -/

structure VRow where
  summons_number : Option String
  plate_id : Option String
  issue_date : Option ℕ
  violation_code : Option String
  violation_description : Option String
  violation_county : Option String
  borough : Option String
  fine_amount : Option ℚ
  latitude : Option ℚ
  longitude : Option ℚ
deriving DecidableEq

/-- Whether inserting `v` would violate the `UNIQUE(summons_number)`
constraint against an existing row `r` (SQL: `NULL`s never conflict). -/
def summonsConflict (r v : VRow) : Bool :=
  match r.summons_number, v.summons_number with
  | some a, some b => a == b
  | _, _ => false

/-- Semantics of `INSERT OR REPLACE INTO violations ...` in `load_real_violations`:
delete every row conflicting on the unique `summons_number`, then insert
the new row at the end. -/
def upsertViolation (t : List VRow) (v : VRow) : List VRow :=
  (t.filter (fun r => !summonsConflict r v)) ++ [v]

/-! ## Ingestion of a fetched violation record (`load_real_violations`) -/

/-- A raw record from the open-data feed (only the fields the ingestion
code reads). -/
structure RawViolation where
  summons_number : Option String
  plate_id : Option String
  issue_date : Option ℕ
  violation_code : Option String
  violation_county : Option String
deriving DecidableEq

/-- The table of `_get_violation_code_descriptions`, verbatim. -/
def violationCodeDescriptions : List (String × String) :=
  [("14", "NO STANDING-DAY/TIME LIMITS"),
   ("16", "NO STANDING-BUS STOP"),
   ("17", "NO PARKING-DAY/TIME LIMITS"),
   ("19", "NO PARKING-BUS STOP"),
   ("20", "NO PARKING-DAY/TIME LIMITS"),
   ("21", "NO PARKING-STREET CLEANING"),
   ("34", "EXPIRED MUNI METER"),
   ("35", "FAIL TO DSPLY MUNI METER RECPT"),
   ("37", "EXPIRED METER"),
   ("38", "OVERTIME STANDING"),
   ("40", "FIRE HYDRANT"),
   ("46", "DOUBLE PARKING"),
   ("47", "DOUBLE PARKING"),
   ("50", "PHTO SCHOOL ZN SPEED VIOLATION"),
   ("67", "BLOCKING PEDESTRIAN RAMP"),
   ("69", "FAILURE TO STOP AT RED LIGHT"),
   ("71", "NO PARKING WHERE PROHIBITED"),
   ("78", "NO PARKING-NIGHTTIME")]

/-- The table of `_get_fine_amount`, verbatim (default fine $50). -/
def get_fine_amount (code : String) : ℚ :=
  (([("14", 115), ("16", 115), ("17", 65), ("19", 115), ("20", 65),
     ("21", 65), ("34", 35), ("35", 35), ("37", 25), ("38", 35),
     ("40", 115), ("46", 115), ("47", 115), ("50", 50), ("67", 165),
     ("69", 50), ("71", 65), ("78", 35)] : List (String × ℚ)).lookup code).getD 50

/-- The table of `_get_borough_from_county`, verbatim (unmapped rows become "UNKNOWN"). -/
def get_borough_from_county (county : String) : String :=
  (([("NY", "MANHATTAN"), ("BX", "BRONX"), ("BK", "BROOKLYN"),
     ("QN", "QUEENS"), ("ST", "STATEN ISLAND")] :
     List (String × String)).lookup county).getD "UNKNOWN"

/-- The row built by the per-record loop of `load_real_violations` for a
raw record, given the geocoder's answer `geo` (`none` = geocoding miss,
stored as SQL NULL coordinates).  Note: the code applies NO bounding-box
check to the geocoded coordinates before the insert. -/
def mkViolationRow (geo : Option (ℚ × ℚ)) (raw : RawViolation) : VRow :=
  let vc := raw.violation_code.getD ""
  { summons_number := raw.summons_number
    plate_id := raw.plate_id
    issue_date := raw.issue_date
    violation_code := raw.violation_code
    violation_description :=
      some ((violationCodeDescriptions.lookup vc).getD ("Violation Code " ++ vc))
    violation_county := raw.violation_county
    borough := some (get_borough_from_county (raw.violation_county.getD ""))
    fine_amount := some (get_fine_amount vc)
    latitude := geo.map (fun p => p.1)
    longitude := geo.map (fun p => p.2) }

/-! ## Theorems for claims C3 and C10 (upsert semantics) -/

lemma summonsConflict_of_some {r v : VRow} {s : String}
    (hr : r.summons_number = some s) (hv : v.summons_number = some s) :
    summonsConflict r v = true := by
  simp [summonsConflict, hr, hv]

lemma summonsConflict_none_right {r v : VRow}
    (hv : v.summons_number = none) : summonsConflict r v = false := by
  cases h : r.summons_number <;> simp [summonsConflict, h, hv]

/-- C3: upserting two records that share a (non-null) summons number, in
sequence, leaves exactly one row with that summons number, holding the
second record's field values. -/
theorem upsert_same_summons_idempotent
    (t : List VRow) (v w : VRow) (s : String)
    (hv : v.summons_number = some s) (hw : w.summons_number = some s) :
    (upsertViolation (upsertViolation t v) w).filter
      (fun r => r.summons_number == some s) = [w] := by
  unfold upsertViolation
  rw [List.filter_append, List.filter_append, List.filter_filter]
  have hvw : summonsConflict v w = true := summonsConflict_of_some hv hw
  have h1 : List.filter (fun r => r.summons_number == some s)
      (List.filter (fun r => decide (¬summonsConflict r w = true))
        (List.filter (fun r => !summonsConflict r v) t)) = [] := by
    rw [List.filter_eq_nil_iff]
    intro r hr
    have hrw := (List.mem_filter.mp hr).2
    simp only [decide_eq_true_eq] at hrw
    intro hbeq
    have hrsum : r.summons_number = some s := by
      simpa using hbeq
    exact hrw (summonsConflict_of_some hrsum hw)
  have h2 : List.filter (fun r => !summonsConflict r w) [v] = [] := by
    simp [hvw]
  have h3 : List.filter (fun r => r.summons_number == some s) [w] = [w] := by
    simp [hw]
  simp only [Bool.not_eq_true', ← Bool.not_eq_true] at h1 h2 ⊢
  rw [h2]
  simpa [h3] using h1

/-- Witness for `upsert_same_summons_idempotent` at a concrete store. -/
theorem upsert_same_summons_idempotent_witness :
    (upsertViolation (upsertViolation
        [mkViolationRow none ⟨some "S1", none, none, none, none⟩]
        (mkViolationRow (some (40.75, -73.98)) ⟨some "S1", some "AAA", none, some "40", none⟩))
        (mkViolationRow (some (40.76, -73.99)) ⟨some "S1", some "BBB", none, some "21", none⟩)).filter
      (fun r => r.summons_number == some "S1") =
      [mkViolationRow (some (40.76, -73.99)) ⟨some "S1", some "BBB", none, some "21", none⟩] :=
  upsert_same_summons_idempotent _ _ _ "S1" rfl rfl

/-- C10: with a NULL summons number the `UNIQUE` constraint never fires,
so `INSERT OR REPLACE` appends a fresh row: each ingestion run grows the
table by one row instead of replacing the previous one. -/
theorem upsert_null_summons_appends
    (t : List VRow) (v : VRow) (hv : v.summons_number = none) :
    upsertViolation t v = t ++ [v] ∧
    (upsertViolation t v).length = t.length + 1 ∧
    (upsertViolation (upsertViolation t v) v).length = t.length + 2 := by
  have hfilter : ∀ u : List VRow, u.filter (fun r => !summonsConflict r v) = u := by
    intro u
    apply List.filter_eq_self.mpr
    intro r _
    simp [summonsConflict_none_right hv]
  refine ⟨?_, ?_, ?_⟩
  · rw [upsertViolation, hfilter]
  · rw [upsertViolation, hfilter]; simp
  · rw [upsertViolation, upsertViolation, hfilter, hfilter]; simp

/-- Witness for `upsert_null_summons_appends` at a concrete store. -/
theorem upsert_null_summons_appends_witness :
    (upsertViolation (upsertViolation
        [mkViolationRow none ⟨some "S1", none, none, none, none⟩]
        (mkViolationRow none ⟨none, some "AAA", none, some "40", none⟩))
        (mkViolationRow none ⟨none, some "AAA", none, some "40", none⟩)).length = 3 :=
  (upsert_null_summons_appends _ _ rfl).2.2

/-! ## Parking signs store and proximity search (`find_nearby_parking_signs`) -/

/-- A row of the in-memory parking-signs table after loading (coordinates
are plain numbers there: load drops NaN rows before storing). -/
structure SignRow where
  sign_id : ℕ
  latitude : ℚ
  longitude : ℚ
  sign_description : String
deriving DecidableEq

/-- The query `find_nearby_parking_signs(lat, lon, radius_meters)`: bounding-box
prefilter with angular buffer `(radius_meters / 111000) * 1.5`, exact
geodesic distance `d` on the survivors, keep `distance <= radius_meters`,
attach `round(distance, 1)` as `distance_meters`, and sort by that
(rounded) `distance_meters` key with Python's stable sort. -/
def find_nearby_parking_signs (d : ℚ → ℚ → ℚ → ℚ → ℚ)
    (store : List SignRow) (qlat qlon R : ℚ) : List (SignRow × ℚ) :=
  let buffer_deg := R / 111000 * 1.5
  let nearby := store.filter (fun r =>
    decide (|r.latitude - qlat| ≤ buffer_deg) &&
    decide (|r.longitude - qlon| ≤ buffer_deg))
  let nearby_signs := nearby.filterMap (fun r =>
    let dist := d qlat qlon r.latitude r.longitude
    if dist ≤ R then some (r, pyRound 1 dist) else none)
  nearby_signs.insertionSort (fun a b => a.2 ≤ b.2)

/-- A concrete distance oracle used in witnesses/counterexamples:
111000 m per degree of latitude plus 85000 m per degree of longitude,
consistent with geodesic lower bounds at NYC latitudes. -/
def dLin (qlat qlon rlat rlon : ℚ) : ℚ :=
  111000 * |rlat - qlat| + 85000 * |rlon - qlon|

lemma buffer_eq (R : ℚ) : R / 111000 * 1.5 = R / 74000 := by
  ring_nf

lemma mem_find_nearby_parking_signs
    {d : ℚ → ℚ → ℚ → ℚ → ℚ} {store : List SignRow} {qlat qlon R : ℚ}
    {p : SignRow × ℚ} :
    p ∈ find_nearby_parking_signs d store qlat qlon R ↔
      p.1 ∈ store ∧
      |p.1.latitude - qlat| ≤ R / 111000 * 1.5 ∧
      |p.1.longitude - qlon| ≤ R / 111000 * 1.5 ∧
      d qlat qlon p.1.latitude p.1.longitude ≤ R ∧
      p.2 = pyRound 1 (d qlat qlon p.1.latitude p.1.longitude) := by
  obtain ⟨p1, p2⟩ := p
  unfold find_nearby_parking_signs
  rw [List.mem_insertionSort, List.mem_filterMap]
  constructor
  · rintro ⟨a, ha, hfa⟩
    rw [List.mem_filter] at ha
    simp only [Bool.and_eq_true, decide_eq_true_eq] at ha
    by_cases hle : d qlat qlon a.latitude a.longitude ≤ R
    · rw [if_pos hle] at hfa
      simp only [Option.some.injEq, Prod.mk.injEq] at hfa
      obtain ⟨rfl, rfl⟩ := hfa
      exact ⟨ha.1, ha.2.1, ha.2.2, hle, rfl⟩
    · rw [if_neg hle] at hfa
      exact Option.noConfusion hfa
  · rintro ⟨hmem, hla, hlo, hle, hdm⟩
    refine ⟨p1, ?_, ?_⟩
    · rw [List.mem_filter]
      simp only [Bool.and_eq_true, decide_eq_true_eq]
      exact ⟨hmem, hla, hlo⟩
    · simp only at hdm ⊢
      rw [if_pos hle, hdm]

/-- C1: assuming the geodesic lower bounds that hold at NYC latitudes
(at least 74000 m per degree of latitude separation and per degree of
longitude separation — true since a degree of latitude is ≥ 110574 m and
a degree of longitude at NYC latitudes is ≥ 84100 m), a sign row is
returned by `find_nearby_parking_signs` iff its exact distance to the
query point is at most the radius; in particular the bounding-box
prefilter never excludes a true positive. -/
theorem find_nearby_signs_radius_iff
    (d : ℚ → ℚ → ℚ → ℚ → ℚ) (store : List SignRow) (qlat qlon R : ℚ)
    (hlb : ∀ r ∈ store,
      74000 * |r.latitude - qlat| ≤ d qlat qlon r.latitude r.longitude ∧
      74000 * |r.longitude - qlon| ≤ d qlat qlon r.latitude r.longitude)
    (r : SignRow) :
    (∃ dm, (r, dm) ∈ find_nearby_parking_signs d store qlat qlon R) ↔
      r ∈ store ∧ d qlat qlon r.latitude r.longitude ≤ R := by
  constructor
  · rintro ⟨dm, hdm⟩
    have h := mem_find_nearby_parking_signs.mp hdm
    exact ⟨h.1, h.2.2.2.1⟩
  · rintro ⟨hmem, hle⟩
    obtain ⟨h1, h2⟩ := hlb r hmem
    refine ⟨pyRound 1 (d qlat qlon r.latitude r.longitude),
      mem_find_nearby_parking_signs.mpr ⟨hmem, ?_, ?_, hle, rfl⟩⟩
    · rw [buffer_eq]; linarith
    · rw [buffer_eq]; linarith

/-- Witness for `find_nearby_signs_radius_iff` at a concrete store. -/
theorem find_nearby_signs_radius_iff_witness :
    ∃ dm, (SignRow.mk 1 40.7001 (-74.0) "x", dm) ∈
      find_nearby_parking_signs dLin [SignRow.mk 1 40.7001 (-74.0) "x"]
        40.7 (-74.0) 100 :=
  (find_nearby_signs_radius_iff dLin [SignRow.mk 1 40.7001 (-74.0) "x"]
      40.7 (-74.0) 100
      (by
        intro r hr
        simp only [List.mem_singleton] at hr
        subst hr
        constructor <;> norm_num [dLin, abs])
      (SignRow.mk 1 40.7001 (-74.0) "x")).mpr
    ⟨List.mem_singleton.mpr rfl, by norm_num [dLin, abs]⟩

/-- C5 (amended): the returned list is sorted non-decreasing by the
attached `distance_meters` value (the sort key is the rounded distance),
and every returned row carries `distance_meters` equal to its exact
distance rounded to one decimal place. -/
theorem find_nearby_signs_sorted_by_rounded
    (d : ℚ → ℚ → ℚ → ℚ → ℚ) (store : List SignRow) (qlat qlon R : ℚ) :
    List.Sorted (fun a b : SignRow × ℚ => a.2 ≤ b.2)
      (find_nearby_parking_signs d store qlat qlon R) ∧
    ∀ p ∈ find_nearby_parking_signs d store qlat qlon R,
      p.2 = pyRound 1 (d qlat qlon p.1.latitude p.1.longitude) := by
  constructor
  · haveI : IsTotal (SignRow × ℚ) (fun a b => a.2 ≤ b.2) :=
      ⟨fun a b => le_total a.2 b.2⟩
    haveI : IsTrans (SignRow × ℚ) (fun a b => a.2 ≤ b.2) :=
      ⟨fun _ _ _ hab hbc => le_trans hab hbc⟩
    exact List.sorted_insertionSort _ _
  · intro p hp
    exact (mem_find_nearby_parking_signs.mp hp).2.2.2.2

/-- Witness for `find_nearby_signs_sorted_by_rounded` at a concrete
result element. -/
theorem find_nearby_signs_sorted_by_rounded_witness :
    (SignRow.mk 1 40.7001 (-74.0) "x",
      pyRound 1 (dLin 40.7 (-74.0) 40.7001 (-74.0))).2 =
    pyRound 1 (dLin 40.7 (-74.0) 40.7001 (-74.0)) :=
  (find_nearby_signs_sorted_by_rounded dLin [SignRow.mk 1 40.7001 (-74.0) "x"]
      40.7 (-74.0) 100).2
    (SignRow.mk 1 40.7001 (-74.0) "x",
      pyRound 1 (dLin 40.7 (-74.0) 40.7001 (-74.0)))
    (mem_find_nearby_parking_signs.mpr
      ⟨List.mem_singleton.mpr rfl, by norm_num [abs],
       by norm_num [abs], by norm_num [dLin, abs], rfl⟩)

/-- Store refuting C5 as stated: two signs on the query meridian whose
exact distances (11.1444 m and 11.1 m) round to the same one-decimal
value 11.1, stored farther-first. -/
def cexSigns : List SignRow :=
  [SignRow.mk 1 40.7001004 (-74.0) "a", SignRow.mk 2 40.7001 (-74.0) "b"]

/-- C5 counterexample: the code sorts by the ROUNDED distance, so when
two exact distances fall in the same 0.1 m rounding bucket the stable
sort preserves store order and the output is not sorted by exact
distance. -/
theorem find_nearby_signs_not_sorted_by_exact :
    ¬ List.Sorted (fun a b : SignRow × ℚ =>
        dLin 40.7 (-74.0) a.1.latitude a.1.longitude ≤
        dLin 40.7 (-74.0) b.1.latitude b.1.longitude)
      (find_nearby_parking_signs dLin cexSigns 40.7 (-74.0) 100) := by
  have h1 : pyRound 1 ((27861 : ℚ)/2500) = 111/10 := by norm_num [pyRound]
  have h2 : pyRound 1 ((111 : ℚ)/10) = 111/10 := by norm_num [pyRound]
  have heval : find_nearby_parking_signs dLin cexSigns 40.7 (-74.0) 100 =
      [(SignRow.mk 1 40.7001004 (-74.0) "a", 111/10),
       (SignRow.mk 2 40.7001 (-74.0) "b", 111/10)] := by
    norm_num [find_nearby_parking_signs, cexSigns, h1, h2, dLin, abs,
      List.filter, List.filterMap, List.insertionSort, List.orderedInsert]
  rw [heval]
  intro hsort
  have hrel := List.rel_of_sorted_cons hsort _ (List.mem_singleton.mpr rfl)
  norm_num [dLin, abs] at hrel

/-! ## Meter zones store and nearest-zone search (`find_nearest_meter_zone`) -/

/-- A row of the in-memory meter-zones table; `lat`/`long` hold the
`pd.to_numeric(errors='coerce')` coercion result (`none` = NaN /
unparseable, and `float(...)` on such a value raises). -/
structure MeterRow where
  meter_id : ℕ
  lat : Option ℚ
  long : Option ℚ
  status : String
deriving DecidableEq

/-- The bounding-box prefilter of `find_nearest_meter_zone` with its
fixed 500 m radius; rows whose coerced coordinate is NaN fail the pandas
comparison and are excluded. -/
def meterPrefilter (store : List MeterRow) (qlat qlon : ℚ) : List MeterRow :=
  let buffer_deg := (500 : ℚ) / 111000 * 1.5
  store.filter (fun r =>
    match r.lat, r.long with
    | some la, some lo =>
        decide (|la - qlat| ≤ buffer_deg) && decide (|lo - qlon| ≤ buffer_deg)
    | _, _ => false)

/-- The `for _, row in nearby_df.head(20).iterrows()` loop:
re-parse both coordinates, skip rows that fail to parse, keep the
strictly closer row (the earlier row wins ties). -/
def nearestScan (d : ℚ → ℚ → ℚ → ℚ → ℚ) (qlat qlon : ℚ) :
    Option (MeterRow × ℚ) → List MeterRow → Option (MeterRow × ℚ)
  | acc, [] => acc
  | acc, r :: rest =>
    match r.lat, r.long with
    | some la, some lo =>
      let dist := d qlat qlon la lo
      match acc with
      | none => nearestScan d qlat qlon (some (r, dist)) rest
      | some (best, bd) =>
          nearestScan d qlat qlon
            (if dist < bd then some (r, dist) else some (best, bd)) rest
    | _, _ => nearestScan d qlat qlon acc rest

/-- The query `find_nearest_meter_zone(lat, lon)`: early-return `None` on an empty
store or empty prefilter result, scan at most the first 20 prefiltered
rows for the minimum distance, attach `round(distance, 1)`. -/
def find_nearest_meter_zone (d : ℚ → ℚ → ℚ → ℚ → ℚ)
    (store : List MeterRow) (qlat qlon : ℚ) : Option (MeterRow × ℚ) :=
  if store.isEmpty then none
  else if (meterPrefilter store qlat qlon).isEmpty then none
  else (nearestScan d qlat qlon none ((meterPrefilter store qlat qlon).take 20)).map
    (fun p => (p.1, pyRound 1 p.2))

/-- The accumulator/result invariant of the scan: the carried distance is
the distance of the carried row's own (parseable) coordinates. -/
def scanEntryOK (d : ℚ → ℚ → ℚ → ℚ → ℚ) (qlat qlon : ℚ)
    (p : MeterRow × ℚ) : Prop :=
  ∃ la lo, p.1.lat = some la ∧ p.1.long = some lo ∧ p.2 = d qlat qlon la lo

lemma nearestScan_eq_none_iff (d : ℚ → ℚ → ℚ → ℚ → ℚ) (qlat qlon : ℚ) :
    ∀ (l : List MeterRow) (acc : Option (MeterRow × ℚ)),
      nearestScan d qlat qlon acc l = none ↔
        acc = none ∧ ∀ r ∈ l, r.lat = none ∨ r.long = none := by
  intro l
  induction l with
  | nil => intro acc; simp [nearestScan]
  | cons r rest ih =>
    intro acc
    cases hla : r.lat with
    | none =>
      simp only [nearestScan, hla]
      rw [ih acc]
      simp [List.forall_mem_cons, hla]
    | some la =>
      cases hlo : r.long with
      | none =>
        simp only [nearestScan, hla, hlo]
        rw [ih acc]
        simp [List.forall_mem_cons, hlo]
      | some lo =>
        simp only [nearestScan, hla, hlo]
        cases acc with
        | none =>
          rw [ih]
          simp [List.forall_mem_cons, hla, hlo]
        | some p =>
          obtain ⟨best, bd⟩ := p
          by_cases hlt : d qlat qlon la lo < bd <;>
            simp only [hlt, if_true, if_false, reduceIte] <;>
            rw [ih] <;>
            simp [List.forall_mem_cons, hla, hlo]

lemma nearestScan_eq_some (d : ℚ → ℚ → ℚ → ℚ → ℚ) (qlat qlon : ℚ) :
    ∀ (l : List MeterRow) (acc : Option (MeterRow × ℚ)) (q : MeterRow × ℚ),
      (∀ p, acc = some p → scanEntryOK d qlat qlon p) →
      nearestScan d qlat qlon acc l = some q →
      scanEntryOK d qlat qlon q ∧
      (acc = some q ∨ q.1 ∈ l) ∧
      (∀ p, acc = some p → q.2 ≤ p.2) ∧
      (∀ r ∈ l, ∀ la lo, r.lat = some la → r.long = some lo →
        q.2 ≤ d qlat qlon la lo) := by
  intro l
  induction l with
  | nil =>
    intro acc q hacc hscan
    simp only [nearestScan] at hscan
    subst hscan
    refine ⟨hacc q rfl, Or.inl rfl, ?_, by simp⟩
    rintro p hp
    obtain rfl := Option.some_injective _ hp
    exact le_refl _
  | cons r rest ih =>
    intro acc q hacc hscan
    cases hla : r.lat with
    | none =>
      rw [nearestScan, hla] at hscan
      obtain ⟨h1, h2, h3, h4⟩ := ih acc q hacc hscan
      refine ⟨h1, h2.imp id (List.mem_cons_of_mem r), h3, ?_⟩
      intro r' hr' la lo hla' hlo'
      rcases List.mem_cons.mp hr' with rfl | hmem
      · rw [hla] at hla'; exact Option.noConfusion hla'
      · exact h4 r' hmem la lo hla' hlo'
    | some la =>
      cases hlo : r.long with
      | none =>
        rw [nearestScan, hla, hlo] at hscan
        obtain ⟨h1, h2, h3, h4⟩ := ih acc q hacc hscan
        refine ⟨h1, h2.imp id (List.mem_cons_of_mem r), h3, ?_⟩
        intro r' hr' la' lo' hla' hlo'
        rcases List.mem_cons.mp hr' with rfl | hmem
        · rw [hlo] at hlo'; exact Option.noConfusion hlo'
        · exact h4 r' hmem la' lo' hla' hlo'
      | some lo =>
        rw [nearestScan, hla, hlo] at hscan
        cases acc with
        | none =>
          have hacc' : ∀ p, (some (r, d qlat qlon la lo) :
              Option (MeterRow × ℚ)) = some p → scanEntryOK d qlat qlon p := by
            rintro p hp
            obtain rfl := Option.some_injective _ hp
            exact ⟨la, lo, hla, hlo, rfl⟩
          obtain ⟨h1, h2, h3, h4⟩ := ih _ q hacc' hscan
          have hqr : q.2 ≤ d qlat qlon la lo := h3 (r, d qlat qlon la lo) rfl
          refine ⟨h1, ?_, ?_, ?_⟩
          · rcases h2 with hq | hq
            · obtain rfl := Option.some_injective _ hq
              exact Or.inr (List.mem_cons_self _ _)
            · exact Or.inr (List.mem_cons_of_mem r hq)
          · rintro p hp
            exact Option.noConfusion hp
          · intro r' hr' la' lo' hla' hlo'
            rcases List.mem_cons.mp hr' with rfl | hmem
            · rw [hla] at hla'
              rw [hlo] at hlo'
              obtain rfl := Option.some_injective _ hla'
              obtain rfl := Option.some_injective _ hlo'
              exact hqr
            · exact h4 r' hmem la' lo' hla' hlo'
        | some p =>
          obtain ⟨best, bd⟩ := p
          have hbest : scanEntryOK d qlat qlon (best, bd) := hacc _ rfl
          set acc' := if d qlat qlon la lo < bd then (r, d qlat qlon la lo)
            else (best, bd) with hadef
          have hacc' : ∀ p, (some acc' : Option (MeterRow × ℚ)) = some p →
              scanEntryOK d qlat qlon p := by
            rintro p hp
            obtain rfl := Option.some_injective _ hp
            rw [hadef]
            split_ifs
            · exact ⟨la, lo, hla, hlo, rfl⟩
            · exact hbest
          have hscan' : nearestScan d qlat qlon (some acc') rest = some q := by
            rw [hadef]
            split_ifs with hlt
            · simpa [hlt] using hscan
            · simpa [hlt] using hscan
          obtain ⟨h1, h2, h3, h4⟩ := ih _ q hacc' hscan'
          have hq_acc' : q.2 ≤ acc'.2 := h3 acc' rfl
          have hacc2_le_bd : acc'.2 ≤ bd := by
            rw [hadef]; split_ifs with hlt
            · exact le_of_lt hlt
            · exact le_refl _
          have hacc2_le_dist : acc'.2 ≤ d qlat qlon la lo := by
            rw [hadef]; split_ifs with hlt
            · exact le_refl _
            · exact le_of_not_lt hlt
          refine ⟨h1, ?_, ?_, ?_⟩
          · rcases h2 with hq | hq
            · obtain rfl := Option.some_injective _ hq
              rw [hadef]
              split_ifs
              · exact Or.inr (List.mem_cons_self _ _)
              · exact Or.inl rfl
            · exact Or.inr (List.mem_cons_of_mem r hq)
          · rintro p hp
            obtain rfl := Option.some_injective _ hp
            exact le_trans hq_acc' hacc2_le_bd
          · intro r' hr' la' lo' hla' hlo'
            rcases List.mem_cons.mp hr' with rfl | hmem
            · rw [hla] at hla'
              rw [hlo] at hlo'
              obtain rfl := Option.some_injective _ hla'
              obtain rfl := Option.some_injective _ hlo'
              exact le_trans hq_acc' hacc2_le_dist
            · exact h4 r' hmem la' lo' hla' hlo'

/-- C6: `find_nearest_meter_zone` prefilters with a fixed 500 m radius,
examines at most the first 20 prefiltered rows, skips unparseable
coordinates, and returns the closest examined row with its rounded
distance, or `none` when no examined candidate parses. -/
theorem find_nearest_meter_zone_spec (d : ℚ → ℚ → ℚ → ℚ → ℚ)
    (store : List MeterRow) (qlat qlon : ℚ) :
    (find_nearest_meter_zone d store qlat qlon = none ↔
       ∀ r ∈ (meterPrefilter store qlat qlon).take 20,
         r.lat = none ∨ r.long = none) ∧
    (∀ m dm, find_nearest_meter_zone d store qlat qlon = some (m, dm) →
       m ∈ (meterPrefilter store qlat qlon).take 20 ∧
       ∃ la lo, m.lat = some la ∧ m.long = some lo ∧
         dm = pyRound 1 (d qlat qlon la lo) ∧
         ∀ r ∈ (meterPrefilter store qlat qlon).take 20,
           ∀ la' lo', r.lat = some la' → r.long = some lo' →
             d qlat qlon la lo ≤ d qlat qlon la' lo') := by
  constructor
  · unfold find_nearest_meter_zone
    split_ifs with hst hpre
    · rw [List.isEmpty_iff] at hst
      have hpe : meterPrefilter store qlat qlon = [] := by
        simp [meterPrefilter, hst]
      simp [hpe]
    · rw [List.isEmpty_iff] at hpre
      simp [hpre]
    · rw [Option.map_eq_none']
      rw [nearestScan_eq_none_iff]
      simp
  · intro m dm hres
    unfold find_nearest_meter_zone at hres
    split_ifs at hres with hst hpre
    rw [Option.map_eq_some'] at hres
    obtain ⟨⟨m', dist⟩, hscan, hmk⟩ := hres
    simp only [Prod.mk.injEq] at hmk
    obtain ⟨rfl, rfl⟩ := hmk
    obtain ⟨hok, hpos, -, hmin⟩ :=
      nearestScan_eq_some d qlat qlon _ none (m', dist)
        (by rintro p hp; exact Option.noConfusion hp) hscan
    obtain ⟨la, lo, hla, hlo, hdist⟩ := hok
    dsimp only at hpos hmin hla hlo hdist
    refine ⟨?_, la, lo, hla, hlo, ?_, ?_⟩
    · rcases hpos with h | h
      · exact Option.noConfusion h
      · exact h
    · rw [hdist]
    · intro r hr la' lo' hla' hlo'
      have hm := hmin r hr la' lo' hla' hlo'
      rw [hdist] at hm
      exact hm

/-- The two-zone store of the specification's nearest-meter scenario. -/
def scenarioMeters : List MeterRow :=
  [MeterRow.mk 1 (some 40.7590) (some (-73.9850)) "Active",
   MeterRow.mk 2 (some 40.80) (some (-74.00)) "Active"]

/-- Witness for `find_nearest_meter_zone_spec`: in the scenario store the
zone at `(40.7590, -73.9850)` is returned and lies among the scanned
prefiltered rows. -/
theorem find_nearest_meter_zone_spec_witness :
    MeterRow.mk 1 (some 40.7590) (some (-73.9850)) "Active" ∈
      (meterPrefilter scenarioMeters 40.7589 (-73.9851)).take 20 :=
  ((find_nearest_meter_zone_spec dLin scenarioMeters 40.7589 (-73.9851)).2
    (MeterRow.mk 1 (some 40.7590) (some (-73.9850)) "Active") (98/5)
    (by
      have h1 : pyRound 1 ((98 : ℚ)/5) = 98/5 := by norm_num [pyRound]
      norm_num [find_nearest_meter_zone, meterPrefilter, nearestScan,
        scenarioMeters, dLin, abs, h1, List.filter, List.take,
        List.isEmpty])).1

/-! ## Nearby-violations query (`find_nearby_violations`) -/

/-- The optional inclusive date-range filter of the SQL query
(`AND date(issue_date) >= date(?)` / `<= date(?)`): a NULL or
unparseable `issue_date` never satisfies an active bound, and the Python
truthiness test on `start_date`/`end_date` is modelled by `Option`. -/
def dateFilterOK (start stop : Option ℕ) (r : VRow) : Bool :=
  (match start with
   | some s =>
     match r.issue_date with
     | some dt => decide (s ≤ dt)
     | none => false
   | none => true) &&
  (match stop with
   | some e =>
     match r.issue_date with
     | some dt => decide (dt ≤ e)
     | none => false
   | none => true)

/-- The subquery + outer `WHERE distance_meters <= ?` of
`find_nearby_violations`: rows with non-NULL coordinates passing the
date filter, paired with their in-query distance, restricted to the
radius. -/
def nearbyViolationCandidates (d : ℚ → ℚ → ℚ → ℚ → ℚ) (table : List VRow)
    (qlat qlon R : ℚ) (start stop : Option ℕ) : List (VRow × ℚ) :=
  (table.filterMap (fun r =>
    match r.latitude, r.longitude with
    | some la, some lo =>
        if dateFilterOK start stop r then some (r, d qlat qlon la lo) else none
    | _, _ => none)).filter (fun p => decide (p.2 ≤ R))

/-- The query `find_nearby_violations(lat, lon, radius_meters, start_date,
end_date, limit)`: candidates ordered by (exact, unrounded) distance
ascending, capped at `limit`, each row carrying `round(distance, 1)`. -/
def find_nearby_violations (d : ℚ → ℚ → ℚ → ℚ → ℚ) (table : List VRow)
    (qlat qlon R : ℚ) (start stop : Option ℕ) (limit : ℕ) :
    List (VRow × ℚ) :=
  (((nearbyViolationCandidates d table qlat qlon R start stop).insertionSort
      (fun a b => a.2 ≤ b.2)).take limit).map
    (fun p => (p.1, pyRound 1 p.2))

lemma mem_nearbyViolationCandidates
    {d : ℚ → ℚ → ℚ → ℚ → ℚ} {table : List VRow} {qlat qlon R : ℚ}
    {start stop : Option ℕ} {q : VRow × ℚ} :
    q ∈ nearbyViolationCandidates d table qlat qlon R start stop ↔
      q.1 ∈ table ∧
      ∃ la lo, q.1.latitude = some la ∧ q.1.longitude = some lo ∧
        dateFilterOK start stop q.1 = true ∧
        q.2 = d qlat qlon la lo ∧ q.2 ≤ R := by
  obtain ⟨r, dist⟩ := q
  unfold nearbyViolationCandidates
  rw [List.mem_filter, List.mem_filterMap]
  constructor
  · rintro ⟨⟨a, ha, hfa⟩, hR⟩
    simp only [decide_eq_true_eq] at hR
    cases hla : a.latitude with
    | none => rw [hla] at hfa; exact Option.noConfusion hfa
    | some la =>
      cases hlo : a.longitude with
      | none => rw [hla, hlo] at hfa; exact Option.noConfusion hfa
      | some lo =>
        rw [hla, hlo] at hfa
        dsimp only at hfa
        by_cases hdate : dateFilterOK start stop a
        · rw [if_pos hdate] at hfa
          simp only [Option.some.injEq, Prod.mk.injEq] at hfa
          obtain ⟨rfl, rfl⟩ := hfa
          exact ⟨ha, la, lo, hla, hlo, hdate, rfl, hR⟩
        · rw [if_neg hdate] at hfa
          exact Option.noConfusion hfa
  · rintro ⟨hmem, la, lo, hla, hlo, hdate, hdist, hR⟩
    dsimp only at hla hlo hdate hdist hR
    refine ⟨⟨r, hmem, ?_⟩, by simpa using hR⟩
    rw [hla, hlo]
    dsimp only
    rw [if_pos hdate, hdist]

/-- C2: the rows returned by `find_nearby_violations` are exactly the
stored rows with non-null coordinates, an issue date inside the
(optional) inclusive range, and in-query distance at most the radius —
ordered by that distance ascending, capped at `limit`, each carrying the
distance rounded to one decimal place; an inverted date range yields an
empty list, not an error. -/
theorem find_nearby_violations_spec (d : ℚ → ℚ → ℚ → ℚ → ℚ)
    (table : List VRow) (qlat qlon R : ℚ) (start stop : Option ℕ)
    (limit : ℕ) :
    (∀ p ∈ find_nearby_violations d table qlat qlon R start stop limit,
       p.1 ∈ table ∧
       ∃ la lo, p.1.latitude = some la ∧ p.1.longitude = some lo ∧
         dateFilterOK start stop p.1 = true ∧
         d qlat qlon la lo ≤ R ∧
         p.2 = pyRound 1 (d qlat qlon la lo)) ∧
    List.Pairwise (fun a b : VRow × ℚ =>
        d qlat qlon (a.1.latitude.getD 0) (a.1.longitude.getD 0) ≤
        d qlat qlon (b.1.latitude.getD 0) (b.1.longitude.getD 0))
      (find_nearby_violations d table qlat qlon R start stop limit) ∧
    (find_nearby_violations d table qlat qlon R start stop limit).length =
      min limit (nearbyViolationCandidates d table qlat qlon R start stop).length ∧
    ((nearbyViolationCandidates d table qlat qlon R start stop).length ≤ limit →
      ∀ r ∈ table, ∀ la lo, r.latitude = some la → r.longitude = some lo →
        dateFilterOK start stop r = true → d qlat qlon la lo ≤ R →
        ∃ dm, (r, dm) ∈ find_nearby_violations d table qlat qlon R start stop limit) ∧
    (∀ s e, start = some s → stop = some e → e < s →
      find_nearby_violations d table qlat qlon R start stop limit = []) := by
  have hmemsort : ∀ p : VRow × ℚ,
      p ∈ ((nearbyViolationCandidates d table qlat qlon R start stop).insertionSort
        (fun a b => a.2 ≤ b.2)).take limit →
      p ∈ nearbyViolationCandidates d table qlat qlon R start stop := by
    intro p hp
    exact (List.mem_insertionSort _).mp (List.mem_of_mem_take hp)
  refine ⟨?_, ?_, ?_, ?_, ?_⟩
  · intro p hp
    unfold find_nearby_violations at hp
    rw [List.mem_map] at hp
    obtain ⟨q, hq, rfl⟩ := hp
    obtain ⟨hmem, la, lo, hla, hlo, hdate, hdist, hR⟩ :=
      mem_nearbyViolationCandidates.mp (hmemsort q hq)
    refine ⟨hmem, la, lo, hla, hlo, hdate, ?_, ?_⟩
    · rw [← hdist]; exact hR
    · show pyRound 1 q.2 = pyRound 1 (d qlat qlon la lo)
      rw [hdist]
  · unfold find_nearby_violations
    rw [List.pairwise_map]
    haveI : IsTotal (VRow × ℚ) (fun a b => a.2 ≤ b.2) :=
      ⟨fun a b => le_total a.2 b.2⟩
    haveI : IsTrans (VRow × ℚ) (fun a b => a.2 ≤ b.2) :=
      ⟨fun _ _ _ hab hbc => le_trans hab hbc⟩
    have hsorted : List.Pairwise (fun a b : VRow × ℚ => a.2 ≤ b.2)
        (((nearbyViolationCandidates d table qlat qlon R start stop).insertionSort
          (fun a b => a.2 ≤ b.2)).take limit) :=
      (List.sorted_insertionSort _ _).sublist (List.take_sublist _ _)
    refine hsorted.imp_of_mem ?_
    intro a b ha hb hab
    obtain ⟨-, la, lo, hla, hlo, -, hda, -⟩ :=
      mem_nearbyViolationCandidates.mp (hmemsort a ha)
    obtain ⟨-, lb, lob, hlb, hlob, -, hdb, -⟩ :=
      mem_nearbyViolationCandidates.mp (hmemsort b hb)
    rw [hla, hlo, hlb, hlob]
    simp only [Option.getD_some]
    rw [← hda, ← hdb]
    exact hab
  · unfold find_nearby_violations
    rw [List.length_map, List.length_take,
      (List.perm_insertionSort _ _).length_eq]
  · intro hlen r hmem la lo hla hlo hdate hR
    have hcand : (r, d qlat qlon la lo) ∈
        nearbyViolationCandidates d table qlat qlon R start stop :=
      mem_nearbyViolationCandidates.mpr
        ⟨hmem, la, lo, hla, hlo, hdate, rfl, hR⟩
    have hsortlen : ((nearbyViolationCandidates d table qlat qlon R start stop).insertionSort
        (fun a b => a.2 ≤ b.2)).length ≤ limit := by
      rw [(List.perm_insertionSort _ _).length_eq]; exact hlen
    refine ⟨pyRound 1 (d qlat qlon la lo), ?_⟩
    unfold find_nearby_violations
    rw [List.mem_map]
    refine ⟨(r, d qlat qlon la lo), ?_, rfl⟩
    rw [List.take_of_length_le hsortlen, List.mem_insertionSort]
    exact hcand
  · rintro s e rfl rfl hse
    have hnil : nearbyViolationCandidates d table qlat qlon R
        (some s) (some e) = [] := by
      rw [List.eq_nil_iff_forall_not_mem]
      intro q hq
      obtain ⟨-, la, lo, -, -, hdate, -, -⟩ :=
        mem_nearbyViolationCandidates.mp hq
      rw [dateFilterOK] at hdate
      cases hdt : q.1.issue_date with
      | none => rw [hdt] at hdate; simp at hdate
      | some dt =>
        rw [hdt] at hdate
        simp only [Bool.and_eq_true, decide_eq_true_eq] at hdate
        exact absurd (le_trans hdate.1 hdate.2) (not_le.mpr hse)
    unfold find_nearby_violations
    rw [hnil]
    simp

/-- Witness for `find_nearby_violations_spec`: with an inverted date
range the query returns the empty list. -/
theorem find_nearby_violations_spec_witness :
    find_nearby_violations dLin
      [mkViolationRow (some (40.75, -73.98))
        ⟨some "S1", none, some 20230615, some "40", none⟩]
      40.75 (-73.98) 1000 (some 20230701) (some 20230101) 100 = [] :=
  (find_nearby_violations_spec dLin
      [mkViolationRow (some (40.75, -73.98))
        ⟨some "S1", none, some 20230615, some "40", none⟩]
      40.75 (-73.98) 1000 (some 20230701) (some 20230101) 100).2.2.2.2
    20230701 20230101 rfl rfl (by norm_num)

/-! ## Violation trends (`get_violation_trends`) -/

/-- One aggregation bucket of the trends query (`violation_type`,
`count`, `avg_fine` after Python's `round(..., 2)`). -/
structure TrendBucket where
  violation_type : Option String
  count : ℕ
  avg_fine : ℚ
deriving DecidableEq

/-- The `WHERE` clause of the trends query: optional case-insensitive
borough match (`UPPER(borough) = UPPER(?)`, NULL borough never matches)
and optional year match (`strftime('%Y', issue_date) = ?`; in the
`yyyymmdd` encoding the 4-digit year is `dt / 10000`). -/
def trendRowMatches (borough : Option String) (year : Option ℕ)
    (r : VRow) : Bool :=
  (match borough with
   | some b =>
     match r.borough with
     | some rb => rb.toUpper == b.toUpper
     | none => false
   | none => true) &&
  (match year with
   | some y =>
     match r.issue_date with
     | some dt => dt / 10000 == y
     | none => false
   | none => true)

/-- Distinct group keys in first-occurrence order (SQL `GROUP BY
violation_description`; NULL descriptions form one group). -/
def firstKeys (seen : List (Option String)) :
    List (Option String) → List (Option String)
  | [] => []
  | k :: ks => if k ∈ seen then firstKeys seen ks
               else k :: firstKeys (k :: seen) ks

/-- Grouping `GROUP BY violation_description` over the matching rows. -/
def trendGroups (rows : List VRow) : List (Option String × List VRow) :=
  (firstKeys [] (rows.map (fun r => r.violation_description))).map
    (fun k => (k, rows.filter (fun r => r.violation_description == k)))

/-- One bucket: `COUNT(*)` and `AVG(fine_amount)` (SQL `AVG` ignores
NULL fines and is NULL on an empty set, which the Python layer maps to 0
before `round(..., 2)`). -/
def mkTrendBucket (k : Option String) (grp : List VRow) : TrendBucket :=
  let fines := grp.filterMap (fun r => r.fine_amount)
  let avg : ℚ := if fines.length = 0 then 0 else fines.sum / fines.length
  { violation_type := k, count := grp.length, avg_fine := pyRound 2 avg }

/-- The query `get_violation_trends(borough, year)`: group the matching rows by
description, order by count descending, keep the top 10. -/
def get_violation_trends (table : List VRow) (borough : Option String)
    (year : Option ℕ) : List TrendBucket :=
  let matching := table.filter (trendRowMatches borough year)
  let buckets := (trendGroups matching).map (fun p => mkTrendBucket p.1 p.2)
  (buckets.insertionSort (fun a b => b.count ≤ a.count)).take 10

/-- A violation row carrying only a summons number, a description and a
fine, as in the specification's trend-aggregation scenario. -/
def trendRow (sn desc : String) (fine : ℚ) : VRow :=
  { summons_number := some sn, plate_id := none, issue_date := none,
    violation_code := none, violation_description := some desc,
    violation_county := none, borough := none, fine_amount := some fine,
    latitude := none, longitude := none }

/-- The `{A, A, B}` store with fines `{10, 20, 30}` of the
specification's trend-aggregation scenario. -/
def trendScenarioTable : List VRow :=
  [trendRow "T1" "A" 10, trendRow "T2" "A" 20, trendRow "T3" "B" 30]

/-- C7: the trends query returns at most 10 buckets, ordered by count
descending, an empty list when no row matches, and on the `{A, A, B}` /
`{10, 20, 30}` scenario returns A (count 2, average 15) before B
(count 1, average 30). -/
theorem get_violation_trends_spec (table : List VRow)
    (borough : Option String) (year : Option ℕ) :
    (get_violation_trends table borough year).length ≤ 10 ∧
    List.Pairwise (fun a b : TrendBucket => b.count ≤ a.count)
      (get_violation_trends table borough year) ∧
    (table.filter (trendRowMatches borough year) = [] →
      get_violation_trends table borough year = []) ∧
    get_violation_trends trendScenarioTable none none =
      [TrendBucket.mk (some "A") 2 15, TrendBucket.mk (some "B") 1 30] := by
  refine ⟨?_, ?_, ?_, ?_⟩
  · exact List.length_take_le _ _
  · haveI : IsTotal TrendBucket (fun a b => b.count ≤ a.count) :=
      ⟨fun a b => le_total b.count a.count⟩
    haveI : IsTrans TrendBucket (fun a b => b.count ≤ a.count) :=
      ⟨fun _ _ _ hab hbc => le_trans hbc hab⟩
    exact (List.sorted_insertionSort _ _).sublist (List.take_sublist _ _)
  · intro hmatch
    unfold get_violation_trends
    rw [hmatch]
    rfl
  · have hfilter : trendScenarioTable.filter (trendRowMatches none none) =
        trendScenarioTable := by
      simp [trendRowMatches]
    have hkeys : firstKeys []
        (trendScenarioTable.map (fun r => r.violation_description)) =
        [some "A", some "B"] := by
      simp [trendScenarioTable, trendRow, firstKeys]
    have hgA : trendScenarioTable.filter
        (fun r => r.violation_description == some "A") =
        [trendRow "T1" "A" 10, trendRow "T2" "A" 20] := by
      simp [trendScenarioTable, trendRow]
    have hgB : trendScenarioTable.filter
        (fun r => r.violation_description == some "B") =
        [trendRow "T3" "B" 30] := by
      simp [trendScenarioTable, trendRow]
    have h15 : pyRound 2 ((15 : ℚ)) = 15 := by norm_num [pyRound]
    have h30 : pyRound 2 ((30 : ℚ)) = 30 := by norm_num [pyRound]
    simp only [get_violation_trends, trendGroups]
    rw [hfilter, hkeys]
    have hfinesA : List.filterMap (fun r => r.fine_amount)
        [trendRow "T1" "A" 10, trendRow "T2" "A" 20] = [10, 20] := by
      simp [trendRow]
    have hfinesB : List.filterMap (fun r => r.fine_amount)
        [trendRow "T3" "B" 30] = [30] := by
      simp [trendRow]
    simp only [List.map_cons, List.map_nil, hgA, hgB]
    norm_num [mkTrendBucket, hfinesA, hfinesB, h15, h30,
      List.insertionSort, List.orderedInsert, List.take]

/-- Witness for `get_violation_trends_spec`: an empty store yields an
empty trends list. -/
theorem get_violation_trends_spec_witness :
    get_violation_trends [] none none = [] :=
  (get_violation_trends_spec [] none none).2.2.1 rfl

/-! ## Fallback state-plane conversion
(`_approximate_state_plane_conversion`) -/

/-- A raw parking-sign row during load, with optional State-Plane
coordinates (`pd.to_numeric` coercion results) and optional geographic
coordinates. -/
structure SPRow where
  sign_id : ℕ
  sign_x_coord : Option ℚ
  sign_y_coord : Option ℚ
  latitude : Option ℚ
  longitude : Option ℚ
deriving DecidableEq

/-- The function `_approximate_state_plane_conversion`: the fixed linear
approximation applied to every row with both planar coordinates present
(`x_offset=913200, y_offset=120000, x_scale=364000, y_scale=274000,
base_lat=40.7128, base_lon=-74.0060`); rows with a missing input
coordinate are left unchanged. -/
def approximate_state_plane_conversion (rows : List SPRow) : List SPRow :=
  rows.map (fun r =>
    match r.sign_x_coord, r.sign_y_coord with
    | some x, some y =>
        { r with longitude := some (-74.0060 + (x - 913200) / 364000),
                 latitude := some (40.7128 + (y - 120000) / 274000) }
    | _, _ => r)

/-- C8: the fallback conversion maps each row with both planar
coordinates to the fixed linear approximation and leaves rows with a
missing input coordinate unchanged (the function is total, so no
exception can propagate). -/
theorem approximate_state_plane_conversion_spec (rows : List SPRow) :
    List.Forall₂ (fun r r' : SPRow =>
      (∀ x y, r.sign_x_coord = some x → r.sign_y_coord = some y →
        r' = { r with longitude := some (-74.0060 + (x - 913200) / 364000),
                      latitude := some (40.7128 + (y - 120000) / 274000) }) ∧
      ((r.sign_x_coord = none ∨ r.sign_y_coord = none) → r' = r))
      rows (approximate_state_plane_conversion rows) := by
  induction rows with
  | nil => exact List.Forall₂.nil
  | cons r rest ih =>
    refine List.Forall₂.cons ⟨?_, ?_⟩ ih
    · intro x y hx hy
      show (match r.sign_x_coord, r.sign_y_coord with
        | some x, some y =>
            { r with longitude := some (-74.0060 + (x - 913200) / 364000),
                     latitude := some (40.7128 + (y - 120000) / 274000) }
        | _, _ => r) = _
      rw [hx, hy]
    · intro hmiss
      show (match r.sign_x_coord, r.sign_y_coord with
        | some x, some y =>
            { r with longitude := some (-74.0060 + (x - 913200) / 364000),
                     latitude := some (40.7128 + (y - 120000) / 274000) }
        | _, _ => r) = r
      rcases hmiss with hx | hy
      · rw [hx]
      · cases hx : r.sign_x_coord with
        | none => rw [hy]
        | some x => rw [hy]

/-- Witness for `approximate_state_plane_conversion_spec`: the reference
point `(913200, 120000)` converts to `(40.7128, -74.0060)`. -/
theorem approximate_state_plane_conversion_spec_witness :
    approximate_state_plane_conversion
      [SPRow.mk 1 (some 913200) (some 120000) none none] =
      [SPRow.mk 1 (some 913200) (some 120000)
        (some 40.7128) (some (-74.0060))] := by
  have h := approximate_state_plane_conversion_spec
    [SPRow.mk 1 (some 913200) (some 120000) none none]
  rw [List.forall₂_cons_left_iff] at h
  obtain ⟨b, l', hrel, htail, heq⟩ := h
  rw [List.forall₂_nil_left_iff] at htail
  subst htail
  rw [heq, hrel.1 913200 120000 rfl rfl]
  norm_num [SPRow.mk.injEq]

/-! ## Signs load with synthetic fallback (`load_parking_signs`,
`_create_sample_parking_signs`, `get_data_status`) -/

/-- A raw parking-sign record with direct geographic columns after
`pd.to_numeric` coercion. -/
structure RawSign where
  sign_id : ℕ
  latitude : Option ℚ
  longitude : Option ℚ
  sign_description : String
deriving DecidableEq

/-- The `dropna` + NYC-bounding-box filter applied by
`load_parking_signs` before storing the table. -/
def signsBoxFilter (raw : List RawSign) : List SignRow :=
  raw.filterMap (fun r =>
    match r.latitude, r.longitude with
    | some la, some lo =>
        if inBox la lo then
          some (SignRow.mk r.sign_id la lo r.sign_description)
        else none
    | _, _ => none)

/-- The rotating canned sign descriptions of
`_create_sample_parking_signs` verbatim. -/
def sign_types : List String :=
  ["NO PARKING 8AM-6PM MON-FRI",
   "NO STANDING 7AM-7PM EXCEPT SUNDAY",
   "NO PARKING STREET CLEANING TUESDAY 11AM-2PM",
   "2 HOUR PARKING 9AM-6PM MON-SAT",
   "NO PARKING ANYTIME",
   "METERED PARKING 9AM-6PM MON-SAT",
   "NO STANDING 7AM-7PM",
   "NO PARKING 8AM-6PM EXCEPT SUNDAY",
   "1 HOUR PARKING 9AM-6PM MON-SAT",
   "NO PARKING STREET CLEANING WEDNESDAY 11AM-2PM"]

/-- The generator `_create_sample_parking_signs`: 1000 synthetic rows;
`random.uniform(a, b) = a + t * (b - a)` with `t ∈ [0, 1]` is modelled
by the supplied draw functions, `random.choice` by an index chooser. -/
def create_sample_parking_signs (randLat randLon : ℕ → ℚ)
    (choice : ℕ → ℕ) : List SignRow :=
  (List.range 1000).map (fun i =>
    SignRow.mk i
      (40.4774 + randLat i * (40.9176 - 40.4774))
      ((-74.2591) + randLon i * ((-73.7004) - (-74.2591)))
      (sign_types.getD (choice i % 10) ""))

/-- The loader `load_parking_signs`: any exception in fetch/parse (the `.error`
case) falls back to the synthetic dataset and still returns `True`; an
empty response also falls back; otherwise the box-filtered rows are
stored. -/
def load_parking_signs (fetched : Except Unit (List RawSign))
    (randLat randLon : ℕ → ℚ) (choice : ℕ → ℕ) : Bool × List SignRow :=
  match fetched with
  | .error _ => (true, create_sample_parking_signs randLat randLon choice)
  | .ok data =>
    if data.isEmpty then
      (true, create_sample_parking_signs randLat randLon choice)
    else (true, signsBoxFilter data)

/-- Status field `get_data_status()["parking_signs"]["total_count"]`: number of rows
in the signs store. -/
def signsCount (store : List SignRow) : ℕ := store.length

set_option maxRecDepth 4000 in
/-- C9: when the signs fetch/parse raises, `load_parking_signs` returns
`True` and the store holds exactly 1000 synthetic rows, all inside the
NYC bounding box, so the status report shows `signsCount = 1000`. -/
theorem load_parking_signs_fallback (randLat randLon : ℕ → ℚ)
    (choice : ℕ → ℕ)
    (hLat : ∀ i, 0 ≤ randLat i ∧ randLat i ≤ 1)
    (hLon : ∀ i, 0 ≤ randLon i ∧ randLon i ≤ 1) :
    (load_parking_signs (Except.error ()) randLat randLon choice).1 = true ∧
    signsCount (load_parking_signs (Except.error ()) randLat randLon choice).2
      = 1000 ∧
    ∀ r ∈ (load_parking_signs (Except.error ()) randLat randLon choice).2,
      inBox r.latitude r.longitude := by
  refine ⟨rfl, ?_, ?_⟩
  · simp only [load_parking_signs, signsCount, create_sample_parking_signs,
      List.length_map, List.length_range]
  · intro r hr
    simp only [load_parking_signs, create_sample_parking_signs,
      List.mem_map, List.mem_range] at hr
    obtain ⟨i, -, rfl⟩ := hr
    obtain ⟨hL0, hL1⟩ := hLat i
    obtain ⟨hO0, hO1⟩ := hLon i
    have h1 : (0 : ℚ) ≤ randLat i * (40.9176 - 40.4774) :=
      mul_nonneg hL0 (by norm_num)
    have h2 : randLat i * (40.9176 - 40.4774) ≤ 40.9176 - 40.4774 :=
      mul_le_of_le_one_left (by norm_num) hL1
    have h3 : (0 : ℚ) ≤ randLon i * ((-73.7004) - (-74.2591)) :=
      mul_nonneg hO0 (by norm_num)
    have h4 : randLon i * ((-73.7004) - (-74.2591)) ≤
        (-73.7004) - (-74.2591) :=
      mul_le_of_le_one_left (by norm_num) hO1
    refine ⟨by linarith, by linarith, by linarith, by linarith⟩

/-- Witness for `load_parking_signs_fallback` with constant draws. -/
theorem load_parking_signs_fallback_witness :
    signsCount (load_parking_signs (Except.error ())
      (fun _ => 1/2) (fun _ => 1/2) (fun _ => 0)).2 = 1000 :=
  (load_parking_signs_fallback (fun _ => 1/2) (fun _ => 1/2) (fun _ => 0)
    (fun _ => by norm_num) (fun _ => by norm_num)).2.1

/-! ## The bounding-box invariant across stores (claim C4) -/

/-- The loader `load_meter_zones`: `dropna` + NYC-bounding-box filter on the
coerced `lat`/`long` columns. -/
def metersBoxFilter (raw : List MeterRow) : List MeterRow :=
  raw.filter (fun r =>
    match r.lat, r.long with
    | some la, some lo => decide (inBox la lo)
    | _, _ => false)

/-- C4 (amended): the signs and meter-zones loads drop rows with
missing/unparseable coordinates or coordinates outside the NYC bounding
box, so every row they store is in-box; (the violations ingestion path,
by contrast, stores geocoded coordinates unchecked — see the
counterexample). -/
theorem box_filter_invariant (rawS : List RawSign) (rawM : List MeterRow) :
    (∀ r ∈ signsBoxFilter rawS, inBox r.latitude r.longitude) ∧
    (∀ r ∈ metersBoxFilter rawM, ∃ la lo,
      r.lat = some la ∧ r.long = some lo ∧ inBox la lo) := by
  constructor
  · intro r hr
    rw [signsBoxFilter, List.mem_filterMap] at hr
    obtain ⟨a, -, hfa⟩ := hr
    cases hla : a.latitude with
    | none => rw [hla] at hfa; exact Option.noConfusion hfa
    | some la =>
      cases hlo : a.longitude with
      | none => rw [hla, hlo] at hfa; exact Option.noConfusion hfa
      | some lo =>
        rw [hla, hlo] at hfa
        dsimp only at hfa
        by_cases hbox : inBox la lo
        · rw [if_pos hbox] at hfa
          obtain rfl := Option.some_injective _ hfa
          exact hbox
        · rw [if_neg hbox] at hfa
          exact Option.noConfusion hfa
  · intro r hr
    rw [metersBoxFilter, List.mem_filter] at hr
    obtain ⟨-, hcond⟩ := hr
    cases hla : r.lat with
    | none => rw [hla] at hcond; exact Bool.noConfusion hcond
    | some la =>
      cases hlo : r.long with
      | none => rw [hla, hlo] at hcond; exact Bool.noConfusion hcond
      | some lo =>
        rw [hla, hlo] at hcond
        simp only [decide_eq_true_eq] at hcond
        exact ⟨la, lo, rfl, rfl, hcond⟩

set_option maxRecDepth 4000 in
/-- Witness for `box_filter_invariant` at a concrete in-box sign row. -/
theorem box_filter_invariant_witness :
    inBox (40.75 : ℚ) (-73.98) :=
  (box_filter_invariant [RawSign.mk 1 (some 40.75) (some (-73.98)) "s"] []).1
    (SignRow.mk 1 40.75 (-73.98) "s")
    (by norm_num [signsBoxFilter, inBox])

set_option maxRecDepth 4000 in
/-- C4 counterexample: the violations ingestion path applies no
bounding-box check — a record geocoded to `(0, 0)` (far outside NYC) is
upserted as-is, so the violations store ends up holding an out-of-box
coordinate. -/
theorem violations_box_counterexample :
    (upsertViolation []
        (mkViolationRow (some (0, 0))
          ⟨some "S9", none, none, some "40", none⟩)).all
      (fun r =>
        match r.latitude, r.longitude with
        | some la, some lo => decide (inBox la lo)
        | _, _ => true) = false := by
  norm_num [upsertViolation, mkViolationRow, inBox]

end ParkingApp
